import Mathlib

/-!
Shallow embedding of `src/spi.rs` from the stm32c0xx-hal repository: the SPI1
driver (prescaler selection, initialization sequence, pin capability tables,
non-blocking read/send, release), together with theorems settling the claims
about it.  Register effects are made explicit as event traces; machine
integers are `Nat` with explicit `%` where width matters.
-/

namespace StmSpi

/-- SPI error (src/spi.rs lines 10-17). -/
inductive Error
| Overrun
| ModeFault
| Crc
deriving DecidableEq

/-- `nb::Result<T, Error>`: success, `nb::Error::WouldBlock`, or
`nb::Error::Other(e)` (src/spi.rs uses `nb::Result`). -/
inductive NbResult (α : Type)
| ok (a : α)
| wouldBlock
| err (e : Error)
deriving DecidableEq

/-- The status-register bits sampled by `read`/`send` (sr.ovr, sr.modf,
sr.crcerr, sr.rxne, sr.txe). -/
structure SR where
  ovr : Bool
  modf : Bool
  crcerr : Bool
  rxne : Bool
  txe : Bool
deriving DecidableEq

/-- Register accesses performed by a `read`/`send` call, in order. -/
inductive RegAccess
| readSR
| readDRbyte
| writeDR (v : Nat)
deriving DecidableEq

/-- `FullDuplex::read` (src/spi.rs lines 235-253): sample SR; `ovr`, then
`modf`, then `crcerr`, then `rxne`.  On `rxne` the code performs a
single-byte volatile read of the data register (`ptr::read_volatile` of the
register address as `*const u8`), which on this little-endian target yields
the low byte of the hardware data word.  Result is paired with the list of
register accesses performed. -/
def read (sr : SR) (dr : Nat) : NbResult Nat × List RegAccess :=
  if sr.ovr then (.err .Overrun, [.readSR])
  else if sr.modf then (.err .ModeFault, [.readSR])
  else if sr.crcerr then (.err .Crc, [.readSR])
  else if sr.rxne then (.ok (dr % 256), [.readSR, .readDRbyte])
  else (.wouldBlock, [.readSR])

/-- `FullDuplex::send` (src/spi.rs lines 255-272): same flag priority; on
`txe` the code performs `self.spi.dr().write(|w| w.bits(byte as _))`, a
full-width register write whose value is the byte zero-extended to the
16-bit hardware data word.  Returns (result, data word after the call,
register accesses). -/
def send (sr : SR) (dr : Nat) (byte : Nat) : NbResult Unit × Nat × List RegAccess :=
  if sr.ovr then (.err .Overrun, dr, [.readSR])
  else if sr.modf then (.err .ModeFault, dr, [.readSR])
  else if sr.crcerr then (.err .Crc, dr, [.readSR])
  else if sr.txe then (.ok (), byte % 65536, [.readSR, .writeDR (byte % 65536)])
  else (.wouldBlock, dr, [.readSR])

/-- The `br` match in `Spi::spi1` (src/spi.rs lines 153-163), applied to the
integer quotient `rcc.clocks.apb_clk / speed`.  The `0 => unreachable!()`
arm is `none` (panic). -/
def brMatch (r : Nat) : Option Nat :=
  if r = 0 then none
  else if r ≤ 2 then some 0
  else if r ≤ 5 then some 1
  else if r ≤ 11 then some 2
  else if r ≤ 23 then some 3
  else if r ≤ 47 then some 4
  else if r ≤ 95 then some 5
  else if r ≤ 191 then some 6
  else some 7

/-- The divisor denoted by a 3-bit BR code: BR = c divides the bus clock by
`2 ^ (c + 1)` (2, 4, ..., 256). -/
def brDivisor (c : Nat) : Nat := 2 ^ (c + 1)

/-- `|a - b|` on naturals, in an omega-friendly form. -/
def dist (a b : Nat) : Nat := (a - b) + (b - a)

/-- The binary prescaler divisors available in hardware. -/
def divisors : List Nat := [2, 4, 8, 16, 32, 64, 128, 256]

/-- `d` is the available divisor closest to `r`, ties resolved to the larger
divisor. -/
def IsClosestDivisor (r d : Nat) : Prop :=
  d ∈ divisors ∧ ∀ e ∈ divisors, dist r d < dist r e ∨ (dist r d = dist r e ∧ e ≤ d)

/-- The claim's phrase, written from the spec for comparison with the code:
`d` is the smallest power of two not less than `r`. -/
def IsSmallestPow2GE (r d : Nat) : Prop :=
  (∃ k, d = 2 ^ k) ∧ r ≤ d ∧ ∀ e, (∃ k, e = 2 ^ k) → r ≤ e → d ≤ e

/-- The GPIO pin identities appearing in the SPI1 capability table
(src/spi.rs lines 281-303), plus `other` for any pin of the chip that is
not in the table (port index, pin index). -/
inductive PinId
| PA1
| PA2
| PA5
| PA6
| PA7
| PA11
| PA12
| PB3
| PB4
| PB5
| PB6
| other (port : Nat) (idx : Nat)
deriving DecidableEq

/-- The alternate-function selectors used by the SPI1 capability table. -/
inductive AltFunction
| AF0
| AF8
| AF9
| AF10
deriving DecidableEq

/-- Electrical configuration of a pin. -/
inductive PinMode
| analog
| alternate (af : AltFunction)
deriving DecidableEq

/-- Modelled from the spec: the gpio module is outside src/.  Spec §3 says a
pin resource starts "in a particular electrical mode (e.g. a default/analog
state before use)", and `fn release(self) -> Self { self.into_analog() }`
in src/spi.rs only typechecks if `DefaultMode` is the analog state. -/
def DefaultMode : PinMode := PinMode.analog

/-- A concrete GPIO pin value: identity plus electrical mode (the Rust type
`PXn<MODE>`). -/
structure GpioPin where
  id : PinId
  mode : PinMode
deriving DecidableEq

/-- Modelled from the spec: the GPIO collaborator's "deactivate to
inert/analog state" (`into_analog`); the gpio module is outside src/. -/
def into_analog (p : GpioPin) : GpioPin := ⟨p.id, PinMode.analog⟩

/-- SCK capability table for SPI1 (src/spi.rs lines 284-289). -/
def sckTable : List (PinId × AltFunction) :=
  [(.PA1, .AF0), (.PA5, .AF0), (.PB3, .AF0), (.PB6, .AF10)]

/-- MISO capability table for SPI1 (src/spi.rs lines 290-295). -/
def misoTable : List (PinId × AltFunction) :=
  [(.PA6, .AF0), (.PA11, .AF0), (.PB4, .AF0), (.PB6, .AF9)]

/-- MOSI capability table for SPI1 (src/spi.rs lines 296-302). -/
def mosiTable : List (PinId × AltFunction) :=
  [(.PA2, .AF0), (.PA7, .AF0), (.PA12, .AF0), (.PB5, .AF0), (.PB6, .AF8)]

/-- What can be bound to the SCK role: the `NoSck` filler or a concrete pin. -/
inductive SckBinding
| noSck
| real (p : GpioPin)
deriving DecidableEq

/-- What can be bound to the MISO role: the `NoMiso` filler or a concrete pin. -/
inductive MisoBinding
| noMiso
| real (p : GpioPin)
deriving DecidableEq

/-- What can be bound to the MOSI role: the `NoMosi` filler or a concrete pin. -/
inductive MosiBinding
| noMosi
| real (p : GpioPin)
deriving DecidableEq

/-- Whether a `PinSck<SPI1>` impl exists for the binding: the macro generates
one for `NoSck` and one for each `(pin, af)` row of `sckTable`, at the pin
type `PXn<DefaultMode>` (src/spi.rs lines 81-87 and 105-115). -/
def hasPinSckImpl : SckBinding → Bool
| .noSck => true
| .real p => p.mode == DefaultMode && sckTable.any fun row => row.1 == p.id

/-- Whether a `PinMiso<SPI1>` impl exists (src/spi.rs lines 89-95, 116-126). -/
def hasPinMisoImpl : MisoBinding → Bool
| .noMiso => true
| .real p => p.mode == DefaultMode && misoTable.any fun row => row.1 == p.id

/-- Whether a `PinMosi<SPI1>` impl exists (src/spi.rs lines 97-103, 127-137). -/
def hasPinMosiImpl : MosiBinding → Bool
| .noMosi => true
| .real p => p.mode == DefaultMode && mosiTable.any fun row => row.1 == p.id

/-- A control-register-1 write, by named bitfield, as resolved by the single
`cr1().write` in `Spi::spi1` (src/spi.rs lines 172-195); fields not set by
the closure are at their reset value (false). -/
structure CR1 where
  cpha : Bool
  cpol : Bool
  mstr : Bool
  br : Nat
  lsbfirst : Bool
  ssm : Bool
  ssi : Bool
  rxonly : Bool
  bidimode : Bool
  spe : Bool
deriving DecidableEq

/-- One hardware effect performed during construction, in program order:
clock-tree enable and reset (the rcc collaborator), a CR2 write by bitfield
(frxth, ds, ssoe; unset fields at reset value, DS reset value is 0b111),
a pin alternate-function activation, or the CR1 write. -/
inductive Event
| enable
| reset
| writeCR2 (frxth : Bool) (ds : Nat) (ssoe : Bool)
| setAltMode (id : PinId) (af : AltFunction)
| writeCR1 (v : CR1)
deriving DecidableEq

/-- `PinSck::setup` for the binding: the filler is a no-op; a table pin calls
`set_alt_mode` with the AF its table row pairs with it (src/spi.rs 106-109). -/
def sckSetup : SckBinding → List Event
| .noSck => []
| .real p =>
    match sckTable.lookup p.id with
    | some af => [.setAltMode p.id af]
    | none => []

/-- `PinMiso::setup` (src/spi.rs 117-120). -/
def misoSetup : MisoBinding → List Event
| .noMiso => []
| .real p =>
    match misoTable.lookup p.id with
    | some af => [.setAltMode p.id af]
    | none => []

/-- `PinMosi::setup` (src/spi.rs 128-131). -/
def mosiSetup : MosiBinding → List Event
| .noMosi => []
| .real p =>
    match mosiTable.lookup p.id with
    | some af => [.setAltMode p.id af]
    | none => []

/-- `PinSck::release`: the filler returns itself; a real pin is deactivated
via `into_analog` (src/spi.rs 84-86, 111-113). -/
def releaseSck : SckBinding → SckBinding
| .noSck => .noSck
| .real p => .real (into_analog p)

/-- `PinMiso::release` (src/spi.rs 92-94, 122-124). -/
def releaseMiso : MisoBinding → MisoBinding
| .noMiso => .noMiso
| .real p => .real (into_analog p)

/-- `PinMosi::release` (src/spi.rs 100-102, 133-135). -/
def releaseMosi : MosiBinding → MosiBinding
| .noMosi => .noMosi
| .real p => .real (into_analog p)

/-- A pin tuple `(SCK, MISO, MOSI)` as in `impl Pins<SPI> for (SCK, MISO, MOSI)`. -/
abbrev PinSet := SckBinding × MisoBinding × MosiBinding

/-- `Pins::setup` for the tuple: `self.0.setup(); self.1.setup(); self.2.setup()`
(src/spi.rs 52-56). -/
def pinSetupEvents (pins : PinSet) : List Event :=
  sckSetup pins.1 ++ misoSetup pins.2.1 ++ mosiSetup pins.2.2

/-- `Pins::release` for the tuple (src/spi.rs 58-60). -/
def releasePins (pins : PinSet) : PinSet :=
  (releaseSck pins.1, releaseMiso pins.2.1, releaseMosi pins.2.2)

/-- The `PINS: Pins<SPI1>` bound of `Spi::spi1`: all three role impls exist. -/
def pinsImpl (pins : PinSet) : Bool :=
  hasPinSckImpl pins.1 && hasPinMisoImpl pins.2.1 && hasPinMosiImpl pins.2.2

/-- The SPI1 peripheral singleton token. -/
inductive SPI1
| mk
deriving DecidableEq

/-- The clock-tree collaborator handle: only `rcc.clocks.apb_clk` is read by
the SPI code. -/
structure Rcc where
  apb_clk : Nat
deriving DecidableEq

/-- The embedded-hal `Polarity`. -/
inductive Polarity
| IdleLow
| IdleHigh
deriving DecidableEq

/-- The embedded-hal `Phase`. -/
inductive Phase
| CaptureOnFirstTransition
| CaptureOnSecondTransition
deriving DecidableEq

/-- The embedded-hal `Mode`: polarity and phase. -/
structure Mode where
  polarity : Polarity
  phase : Phase
deriving DecidableEq

/-- The driver instance `Spi<SPI1, PINS>`: owned peripheral plus pins. -/
structure Spi where
  spi : SPI1
  pins : PinSet
deriving DecidableEq

/-- Outcome of attempting to construct a driver: built (with the trace of
hardware effects, in order), panicked (with the effects performed before the
panic), or rejected by the type system before any code runs. -/
inductive BuildOutcome
| built (drv : Spi) (trace : List Event)
| panicked (trace : List Event)
| typeRejected
deriving DecidableEq

/-- Whether a `BuildOutcome` is a returned driver instance. -/
def BuildOutcome.isBuilt : BuildOutcome → Bool
| .built _ _ => true
| _ => false

/-- `Spi::spi1` (src/spi.rs lines 140-198).  The `PINS: Pins<SPI1>` bound is
modelled as a definedness guard (`typeRejected`, with no effects).  Effects
in program order: `SPI1::enable(rcc)`, `SPI1::reset(rcc)`, the first
`cr2().write` clearing `ssoe` (other fields at reset: frxth = false,
ds = 0b111), the `br` computation (Rust division panics when `speed = 0`,
and the quotient-0 arm is `unreachable!()`), the second `cr2().write`
(frxth set, ds = 0b111, ssoe clear), `pins.setup()`, and the single
`cr1().write` (ssi is set twice by the closure; the resolved field is
a single `true`). -/
def spi1 (spi : SPI1) (pins : PinSet) (mode : Mode) (speed : Nat) (rcc : Rcc) :
    BuildOutcome :=
  if pinsImpl pins then
    let pre : List Event := [.enable, .reset, .writeCR2 false 7 false]
    if speed = 0 then .panicked pre
    else
      match brMatch (rcc.apb_clk / speed) with
      | none => .panicked pre
      | some c =>
          .built ⟨spi, pins⟩
            (pre ++ [.writeCR2 true 7 false] ++ pinSetupEvents pins ++
              [.writeCR1 ⟨mode.phase == Phase.CaptureOnSecondTransition,
                          mode.polarity == Polarity.IdleHigh,
                          true, c, false, true, true, false, false, true⟩])
  else .typeRejected

/-- `Spi::release` (src/spi.rs lines 218-221): `(self.spi, self.pins.release())`,
paired with the (empty) list of peripheral-register effects it performs. -/
def Spi.release (s : Spi) : (SPI1 × PinSet) × List Event :=
  ((s.spi, releasePins s.pins), [])

/-- Helper: the `br` match arm taken for each quotient range. -/
theorem brMatch_cases (r : Nat) (h : 1 ≤ r) :
    ∃ c, brMatch r = some c ∧
      ((r ≤ 2 ∧ c = 0) ∨ (3 ≤ r ∧ r ≤ 5 ∧ c = 1) ∨ (6 ≤ r ∧ r ≤ 11 ∧ c = 2) ∨
       (12 ≤ r ∧ r ≤ 23 ∧ c = 3) ∨ (24 ≤ r ∧ r ≤ 47 ∧ c = 4) ∨
       (48 ≤ r ∧ r ≤ 95 ∧ c = 5) ∨ (96 ≤ r ∧ r ≤ 191 ∧ c = 6) ∨
       (192 ≤ r ∧ c = 7)) := by
  have h0 : ¬ r = 0 := by omega
  by_cases h2 : r ≤ 2
  · refine ⟨0, ?_, by omega⟩
    unfold brMatch
    rw [if_neg h0, if_pos h2]
  by_cases h5 : r ≤ 5
  · refine ⟨1, ?_, by omega⟩
    unfold brMatch
    rw [if_neg h0, if_neg h2, if_pos h5]
  by_cases h11 : r ≤ 11
  · refine ⟨2, ?_, by omega⟩
    unfold brMatch
    rw [if_neg h0, if_neg h2, if_neg h5, if_pos h11]
  by_cases h23 : r ≤ 23
  · refine ⟨3, ?_, by omega⟩
    unfold brMatch
    rw [if_neg h0, if_neg h2, if_neg h5, if_neg h11, if_pos h23]
  by_cases h47 : r ≤ 47
  · refine ⟨4, ?_, by omega⟩
    unfold brMatch
    rw [if_neg h0, if_neg h2, if_neg h5, if_neg h11, if_neg h23, if_pos h47]
  by_cases h95 : r ≤ 95
  · refine ⟨5, ?_, by omega⟩
    unfold brMatch
    rw [if_neg h0, if_neg h2, if_neg h5, if_neg h11, if_neg h23, if_neg h47, if_pos h95]
  by_cases h191 : r ≤ 191
  · refine ⟨6, ?_, by omega⟩
    unfold brMatch
    rw [if_neg h0, if_neg h2, if_neg h5, if_neg h11, if_neg h23, if_neg h47, if_neg h95,
      if_pos h191]
  · refine ⟨7, ?_, by omega⟩
    unfold brMatch
    rw [if_neg h0, if_neg h2, if_neg h5, if_neg h11, if_neg h23, if_neg h47, if_neg h95,
      if_neg h191]

/-- Helper: the `br` match hits the `unreachable!()` arm exactly at quotient 0. -/
theorem brMatch_eq_none (r : Nat) : brMatch r = none ↔ r = 0 := by
  unfold brMatch
  by_cases h0 : r = 0
  · simp [h0]
  · rw [if_neg h0]
    repeat' split
    all_goals simp [h0]

/-- Helper: if the divisor `d` is at least three halves of `fb / fr + 1`, the
resulting SCK frequency exceeds `fr` by at most half. -/
theorem sck_bound (fb fr d : Nat) (hfr : 0 < fr)
    (hB : 2 * (fb / fr + 1) ≤ 3 * d) : 2 * (fb / d) ≤ 3 * fr := by
  have h1 : fb < (fb / fr + 1) * fr :=
    (Nat.div_lt_iff_lt_mul hfr).mp (Nat.lt_succ_self _)
  have h2 : fb / d * d ≤ fb := Nat.div_mul_le_self fb d
  have key : d * (2 * (fb / d)) < d * (3 * fr) := by
    calc d * (2 * (fb / d)) = 2 * (fb / d * d) := by ring
      _ ≤ 2 * fb := Nat.mul_le_mul_left 2 h2
      _ < 2 * ((fb / fr + 1) * fr) := by
          exact mul_lt_mul_of_pos_left h1 (by norm_num)
      _ = (2 * (fb / fr + 1)) * fr := by ring
      _ ≤ (3 * d) * fr := Nat.mul_le_mul_right fr hB
      _ = d * (3 * fr) := by ring
  exact le_of_lt (lt_of_mul_lt_mul_left key (Nat.zero_le d))

/-- Helper: the selected divisor is the closest available one (ties upward),
and bounds the quotient. -/
theorem brMatch_closest (r : Nat) (h : 1 ≤ r) :
    ∃ c, brMatch r = some c ∧ 0 < brDivisor c ∧ IsClosestDivisor r (brDivisor c) ∧
      (r ≤ 383 → 2 * (r + 1) ≤ 3 * brDivisor c) := by
  obtain ⟨c, hc, hcase⟩ := brMatch_cases r h
  refine ⟨c, hc, ?_⟩
  rcases hcase with ⟨hr, rfl⟩ | ⟨hl, hr, rfl⟩ | ⟨hl, hr, rfl⟩ | ⟨hl, hr, rfl⟩ |
    ⟨hl, hr, rfl⟩ | ⟨hl, hr, rfl⟩ | ⟨hl, hr, rfl⟩ | ⟨hl, rfl⟩ <;>
    rw [show brDivisor _ = _ from rfl]
  all_goals
    refine ⟨by norm_num [brDivisor], ⟨by simp [divisors, brDivisor], ?_⟩,
      by norm_num [brDivisor]; omega⟩
  all_goals
    intro e he
    simp only [divisors, List.mem_cons, List.not_mem_nil, or_false] at he
    rcases he with rfl | rfl | rfl | rfl | rfl | rfl | rfl | rfl <;>
      simp only [dist, brDivisor] <;> norm_num <;> omega

/-- C1 counterexample: at `f_bus = 500`, `f_req = 100` the quotient is 5 ≥ 1
and the selected code is 0b001 (divide-by-4); 4 is not the smallest power of
two not less than 5 (that is 8), and the resulting SCK frequency
`500 / 4 = 125` exceeds `f_req = 100`, so both conjuncts of the claim fail. -/
theorem C1_counterexample :
    1 ≤ 500 / 100 ∧ brMatch (500 / 100) = some 1 ∧ brDivisor 1 = 4 ∧
    ¬ IsSmallestPow2GE (500 / 100) (brDivisor 1) ∧ ¬ (500 / brDivisor 1 ≤ 100) := by
  refine ⟨by norm_num, by decide, by decide, ?_, by decide⟩
  intro hsm
  have h5 : (500 : Nat) / 100 = 5 := by norm_num
  have h4 : brDivisor 1 = 4 := by decide
  rw [h5, h4] at hsm
  exact absurd hsm.2.1 (by norm_num)

/-- C1 (amended): for every bus clock `fb` and requested rate `fr` with
quotient `fb / fr ≥ 1`, the selected prescaler code denotes the available
power-of-two divisor (among 2, 4, ..., 256) closest to the quotient, ties
resolved to the larger divisor; the resulting SCK frequency need not be at
most `fr`, but (for quotients up to 383, beyond which the divisor is clamped
at 256) it exceeds `fr` by at most half: `2 * (fb / divisor) ≤ 3 * fr`. -/
theorem C1_br_amended (fb fr : Nat) (hfr : 0 < fr) (h : 1 ≤ fb / fr) :
    ∃ c, brMatch (fb / fr) = some c ∧ IsClosestDivisor (fb / fr) (brDivisor c) ∧
      (fb / fr ≤ 383 → 2 * (fb / brDivisor c) ≤ 3 * fr) := by
  obtain ⟨c, hc, hpos, hclosest, hbound⟩ := brMatch_closest (fb / fr) h
  exact ⟨c, hc, hclosest, fun hle => sck_bound fb fr (brDivisor c) hfr (hbound hle)⟩

/-- C1 witness: the amended claim evaluated at `f_bus = 48`, `f_req = 1`. -/
theorem C1_br_amended_witness :
    ∃ c, brMatch (48 / 1) = some c ∧ IsClosestDivisor (48 / 1) (brDivisor c) ∧
      (48 / 1 ≤ 383 → 2 * (48 / brDivisor c) ≤ 3 * 1) :=
  C1_br_amended 48 1 (by decide) (by decide)

/-- C2: for every bus clock `fb` and requested rate `fr` with quotient
`fb / fr ≥ 1`, the selected 3-bit prescaler code follows exactly the
breakpoint table [1,2] → 0b000, [3,5] → 0b001, [6,11] → 0b010,
[12,23] → 0b011, [24,47] → 0b100, [48,95] → 0b101, [96,191] → 0b110,
[192,∞) → 0b111; in particular `f_bus = 48_000_000`, `f_req = 1_000_000`
(quotient exactly 48) yields 0b101. -/
theorem C2_br_table (fb fr : Nat) (h : 1 ≤ fb / fr) :
    ∃ c, brMatch (fb / fr) = some c ∧
      (fb / fr ≤ 2 → c = 0) ∧
      (3 ≤ fb / fr → fb / fr ≤ 5 → c = 1) ∧
      (6 ≤ fb / fr → fb / fr ≤ 11 → c = 2) ∧
      (12 ≤ fb / fr → fb / fr ≤ 23 → c = 3) ∧
      (24 ≤ fb / fr → fb / fr ≤ 47 → c = 4) ∧
      (48 ≤ fb / fr → fb / fr ≤ 95 → c = 5) ∧
      (96 ≤ fb / fr → fb / fr ≤ 191 → c = 6) ∧
      (192 ≤ fb / fr → c = 7) ∧
      brMatch (48000000 / 1000000) = some 5 := by
  obtain ⟨c, hc, hcase⟩ := brMatch_cases (fb / fr) h
  refine ⟨c, hc, ?_, ?_, ?_, ?_, ?_, ?_, ?_, ?_, by decide⟩ <;> omega

/-- C2 witness: the table evaluated at the quotient of the spec's example. -/
theorem C2_br_table_witness :
    ∃ c, brMatch (48000000 / 1000000) = some c ∧
      (48000000 / 1000000 ≤ 2 → c = 0) ∧
      (3 ≤ 48000000 / 1000000 → 48000000 / 1000000 ≤ 5 → c = 1) ∧
      (6 ≤ 48000000 / 1000000 → 48000000 / 1000000 ≤ 11 → c = 2) ∧
      (12 ≤ 48000000 / 1000000 → 48000000 / 1000000 ≤ 23 → c = 3) ∧
      (24 ≤ 48000000 / 1000000 → 48000000 / 1000000 ≤ 47 → c = 4) ∧
      (48 ≤ 48000000 / 1000000 → 48000000 / 1000000 ≤ 95 → c = 5) ∧
      (96 ≤ 48000000 / 1000000 → 48000000 / 1000000 ≤ 191 → c = 6) ∧
      (192 ≤ 48000000 / 1000000 → c = 7) ∧
      brMatch (48000000 / 1000000) = some 5 :=
  C2_br_table 48000000 1000000 (by decide)

/-- C3: for every status-register value, `read` and `send` decode the flags
in the fixed priority order Overrun > ModeFault > Crc > data-ready: an
overrun wins regardless of any other flag (in particular over ModeFault),
then mode fault, then CRC; with no error flag set and `rxne` set, `read`
returns exactly the low byte of the data register via a single-byte volatile
read, and with `txe` set, `send` writes the byte and succeeds. -/
theorem C3_priority (sr : SR) (dr b : Nat) :
    (sr.ovr = true →
      (read sr dr).1 = .err .Overrun ∧ (send sr dr b).1 = .err .Overrun) ∧
    (sr.ovr = false → sr.modf = true →
      (read sr dr).1 = .err .ModeFault ∧ (send sr dr b).1 = .err .ModeFault) ∧
    (sr.ovr = false → sr.modf = false → sr.crcerr = true →
      (read sr dr).1 = .err .Crc ∧ (send sr dr b).1 = .err .Crc) ∧
    (sr.ovr = false → sr.modf = false → sr.crcerr = false → sr.rxne = true →
      read sr dr = (.ok (dr % 256), [.readSR, .readDRbyte])) ∧
    (sr.ovr = false → sr.modf = false → sr.crcerr = false → sr.txe = true →
      (send sr dr b).1 = .ok () ∧ (send sr dr b).2.1 = b % 65536) := by
  obtain ⟨o, m, c, rx, tx⟩ := sr
  cases o <;> cases m <;> cases c <;> cases rx <;> cases tx <;>
    simp [read, send]

/-- C3 witness: with Overrun and ModeFault both set, the result is Overrun,
never ModeFault, on both `read` and `send`. -/
theorem C3_priority_witness :
    (read ⟨true, true, false, false, false⟩ 0x1234).1 = .err .Overrun ∧
    (send ⟨true, true, false, false, false⟩ 0x1234 0xAB).1 = .err .Overrun :=
  (C3_priority ⟨true, true, false, false, false⟩ 0x1234 0xAB).1 rfl

/-- C4: with no overrun, mode-fault, CRC or data-ready flag set, `read` and
`send` both return the would-block signal, which is by construction distinct
from all three error kinds and from success; `read` performs no access to
the data register (its only register access is the status-register read),
and `send` likewise leaves the data register untouched. -/
theorem C4_would_block (sr : SR) (dr b : Nat)
    (h : sr.ovr = false ∧ sr.modf = false ∧ sr.crcerr = false ∧
      sr.rxne = false ∧ sr.txe = false) :
    (read sr dr).1 = .wouldBlock ∧ (send sr dr b).1 = .wouldBlock ∧
    (read sr dr).2 = [.readSR] ∧ (send sr dr b).2.2 = [.readSR] ∧
    (send sr dr b).2.1 = dr ∧
    (∀ e : Error, (NbResult.wouldBlock : NbResult Nat) ≠ .err e) ∧
    (∀ v : Nat, (NbResult.wouldBlock : NbResult Nat) ≠ .ok v) := by
  obtain ⟨o, m, c, rx, tx⟩ := sr
  obtain ⟨rfl, rfl, rfl, rfl, rfl⟩ := h
  refine ⟨rfl, rfl, rfl, rfl, rfl, ?_, ?_⟩ <;> intro x hx <;> exact nomatch hx

/-- C4 witness: would-block with an idle status register and a nonzero data
register. -/
theorem C4_would_block_witness :
    (read ⟨false, false, false, false, false⟩ 0x55AA).1 = NbResult.wouldBlock ∧
    (read ⟨false, false, false, false, false⟩ 0x55AA).2 = [RegAccess.readSR] :=
  ⟨(C4_would_block ⟨false, false, false, false, false⟩ 0x55AA 0
      ⟨rfl, rfl, rfl, rfl, rfl⟩).1,
   (C4_would_block ⟨false, false, false, false, false⟩ 0x55AA 0
      ⟨rfl, rfl, rfl, rfl, rfl⟩).2.2.1⟩

/-- C6 counterexample: `send 0xAB` with transmit-empty set performs a
full-width write of the zero-extended byte; with the 16-bit hardware data
word previously holding 0xFF00, the word after the write is 0x00AB, so its
high byte changed from 0xFF to 0x00 — the high bits are not left untouched. -/
theorem C6_counterexample :
    (send ⟨false, false, false, false, true⟩ 0xFF00 0xAB).1 = .ok () ∧
    (send ⟨false, false, false, false, true⟩ 0xFF00 0xAB).2.1 % 256 = 0xAB ∧
    ¬ ((send ⟨false, false, false, false, true⟩ 0xFF00 0xAB).2.1 / 256 =
        0xFF00 / 256) := by
  decide

/-- C6 (amended): for every byte `b`, when `send b` runs with the
transmit-buffer-empty flag set and no error flag set, it performs a single
full-width data-register write whose value is `b` zero-extended: the low
8 bits of the programmed word equal `b` and its high bits are written to
zero (they are not left untouched). -/
theorem C6_send_amended (sr : SR) (dr b : Nat) (hb : b < 256)
    (h : sr.ovr = false ∧ sr.modf = false ∧ sr.crcerr = false ∧ sr.txe = true) :
    (send sr dr b).1 = .ok () ∧ (send sr dr b).2.1 % 256 = b ∧
    (send sr dr b).2.1 / 256 = 0 ∧
    (send sr dr b).2.2 = [.readSR, .writeDR b] := by
  obtain ⟨o, m, c, rx, tx⟩ := sr
  obtain ⟨rfl, rfl, rfl, rfl⟩ := h
  have hb' : b % 65536 = b := Nat.mod_eq_of_lt (by omega)
  cases rx <;> simp [send, hb'] <;> omega

/-- C6 witness: the amended claim at byte 0x5A with an idle data register. -/
theorem C6_send_amended_witness :
    (send ⟨false, false, false, false, true⟩ 0 0x5A).1 = .ok () ∧
    (send ⟨false, false, false, false, true⟩ 0 0x5A).2.1 % 256 = 0x5A ∧
    (send ⟨false, false, false, false, true⟩ 0 0x5A).2.1 / 256 = 0 ∧
    (send ⟨false, false, false, false, true⟩ 0 0x5A).2.2 =
      [.readSR, .writeDR 0x5A] :=
  C6_send_amended ⟨false, false, false, false, true⟩ 0 0x5A (by decide)
    ⟨rfl, rfl, rfl, rfl⟩

/-- C5 counterexample: construction does not always return a driver
instance — with `apb_clk = 1` and requested speed 2 the quotient is 0 and
construction panics at the `unreachable!()` arm, after the clock
enable/reset and the first CR2 write. -/
theorem C5_counterexample :
    (spi1 .mk (.noSck, .noMiso, .noMosi) ⟨.IdleLow, .CaptureOnFirstTransition⟩
        2 ⟨1⟩).isBuilt = false ∧
    spi1 .mk (.noSck, .noMiso, .noMosi) ⟨.IdleLow, .CaptureOnFirstTransition⟩
        2 ⟨1⟩ =
      .panicked [.enable, .reset, .writeCR2 false 7 false] := by
  decide

/-- C5 (amended): whenever the quotient `apb_clk / speed` is at least 1 (and
the pin set satisfies the `Pins<SPI1>` bound), construction returns a driver
instance and performs its hardware effects in exactly this order: clock
enable, peripheral reset, a CR2 write with the SS-output-enable bit clear, a
CR2 write with the 1-byte FIFO threshold set, 8-bit data size (ds = 0b111)
and SSOE still clear, activation of every bound pin, and finally a single
CR1 write setting the phase bit iff the mode samples on the second
transition, the polarity bit iff the mode idles high, master mode, the
selected prescaler code, LSB-first clear, software slave management with the
internal slave select high, receive-only clear, bidirectional mode clear,
and the peripheral-enable bit; no register is written before the clock
enable/reset.  (With quotient 0 construction panics instead of returning.) -/
theorem C5_sequence_amended (pins : PinSet) (mode : Mode) (speed : Nat)
    (rcc : Rcc) (hpins : pinsImpl pins = true) (h : 1 ≤ rcc.apb_clk / speed) :
    ∃ c, brMatch (rcc.apb_clk / speed) = some c ∧
      spi1 .mk pins mode speed rcc =
        .built ⟨.mk, pins⟩
          ([.enable, .reset, .writeCR2 false 7 false, .writeCR2 true 7 false] ++
            pinSetupEvents pins ++
            [.writeCR1 ⟨mode.phase == Phase.CaptureOnSecondTransition,
                        mode.polarity == Polarity.IdleHigh,
                        true, c, false, true, true, false, false, true⟩]) := by
  have hs : ¬ speed = 0 := by
    rintro rfl
    rw [Nat.div_zero] at h
    omega
  obtain ⟨c, hc, _⟩ := brMatch_cases (rcc.apb_clk / speed) h
  refine ⟨c, hc, ?_⟩
  unfold spi1
  rw [if_pos hpins, if_neg hs, hc]
  rfl

/-- C5 witness: the amended sequence at the spec's example configuration
(SCK = PA5, MISO = PA6, MOSI = PA7, mode 0, 48 MHz bus, 1 MHz request). -/
theorem C5_sequence_amended_witness :
    ∃ c, brMatch ((48000000 : Nat) / 1000000) = some c ∧
      spi1 .mk (.real ⟨.PA5, DefaultMode⟩, .real ⟨.PA6, DefaultMode⟩,
          .real ⟨.PA7, DefaultMode⟩)
        ⟨.IdleLow, .CaptureOnFirstTransition⟩ 1000000 ⟨48000000⟩ =
        .built ⟨.mk, (.real ⟨.PA5, DefaultMode⟩, .real ⟨.PA6, DefaultMode⟩,
            .real ⟨.PA7, DefaultMode⟩)⟩
          ([.enable, .reset, .writeCR2 false 7 false, .writeCR2 true 7 false] ++
            pinSetupEvents (.real ⟨.PA5, DefaultMode⟩, .real ⟨.PA6, DefaultMode⟩,
              .real ⟨.PA7, DefaultMode⟩) ++
            [.writeCR1 ⟨(⟨.IdleLow, .CaptureOnFirstTransition⟩ : Mode).phase ==
                          Phase.CaptureOnSecondTransition,
                        (⟨.IdleLow, .CaptureOnFirstTransition⟩ : Mode).polarity ==
                          Polarity.IdleHigh,
                        true, c, false, true, true, false, false, true⟩]) :=
  C5_sequence_amended
    (.real ⟨.PA5, DefaultMode⟩, .real ⟨.PA6, DefaultMode⟩, .real ⟨.PA7, DefaultMode⟩)
    ⟨.IdleLow, .CaptureOnFirstTransition⟩ 1000000 ⟨48000000⟩ (by decide) (by decide)

/-- C7: with a well-typed pin set, whenever the quotient `apb_clk / speed` is
0 (requested rate above the bus clock, or a zero requested rate, where the
Rust division itself panics) construction panics at the `unreachable!()`
branch — after the clock enable/reset and the first CR2 write — instead of
returning a driver instance; conversely a returned driver instance implies
the quotient was at least 1, so construction is panic-free only under that
precondition. -/
theorem C7_zero_ratio_panics (pins : PinSet) (mode : Mode) (speed : Nat)
    (rcc : Rcc) (hpins : pinsImpl pins = true) :
    (rcc.apb_clk / speed = 0 →
      spi1 .mk pins mode speed rcc =
        .panicked [.enable, .reset, .writeCR2 false 7 false]) ∧
    (∀ drv tr, spi1 .mk pins mode speed rcc = .built drv tr →
      1 ≤ rcc.apb_clk / speed) := by
  constructor
  · intro h0
    unfold spi1
    rw [if_pos hpins]
    by_cases hs : speed = 0
    · rw [if_pos hs]
    · rw [if_neg hs, (brMatch_eq_none _).mpr h0]
  · intro drv tr hb
    by_contra hlt
    have h0 : rcc.apb_clk / speed = 0 := Nat.lt_one_iff.mp (Nat.not_le.mp hlt)
    unfold spi1 at hb
    rw [if_pos hpins] at hb
    by_cases hs : speed = 0
    · rw [if_pos hs] at hb
      exact nomatch hb
    · rw [if_neg hs, (brMatch_eq_none _).mpr h0] at hb
      exact nomatch hb

/-- C7 witness: with `apb_clk = 2` and requested speed 3 (quotient 0),
construction panics after enable, reset and the first CR2 write. -/
theorem C7_zero_ratio_panics_witness :
    spi1 .mk (.noSck, .noMiso, .noMosi) ⟨.IdleHigh, .CaptureOnSecondTransition⟩
        3 ⟨2⟩ =
      .panicked [.enable, .reset, .writeCR2 false 7 false] :=
  (C7_zero_ratio_panics (.noSck, .noMiso, .noMosi)
      ⟨.IdleHigh, .CaptureOnSecondTransition⟩ 3 ⟨2⟩ (by decide)).1 (by decide)

/-- C8: a role binding satisfies the `PinSck`/`PinMiso`/`PinMosi` capability
for SPI1 exactly when it is the role's placeholder or a pin (in its default
mode) listed in the capability table for that role; activation of a table
pin applies exactly the alternate-function selector its table row pairs with
it; and a pin set violating the bound is rejected by the type system before
any register is touched (`typeRejected`, which carries no effect trace). -/
theorem C8_pin_capability (bs : SckBinding) (bm : MisoBinding)
    (bo : MosiBinding) (mode : Mode) (speed : Nat) (rcc : Rcc) :
    (hasPinSckImpl .noSck = true ∧ hasPinMisoImpl .noMiso = true ∧
      hasPinMosiImpl .noMosi = true) ∧
    (∀ p : GpioPin, hasPinSckImpl (.real p) = true ↔
      p.mode = DefaultMode ∧ p.id ∈ sckTable.map Prod.fst) ∧
    (∀ p : GpioPin, ∀ af, (p.id, af) ∈ sckTable →
      sckSetup (.real p) = [.setAltMode p.id af]) ∧
    (∀ p : GpioPin, hasPinMisoImpl (.real p) = true ↔
      p.mode = DefaultMode ∧ p.id ∈ misoTable.map Prod.fst) ∧
    (∀ p : GpioPin, ∀ af, (p.id, af) ∈ misoTable →
      misoSetup (.real p) = [.setAltMode p.id af]) ∧
    (∀ p : GpioPin, hasPinMosiImpl (.real p) = true ↔
      p.mode = DefaultMode ∧ p.id ∈ mosiTable.map Prod.fst) ∧
    (∀ p : GpioPin, ∀ af, (p.id, af) ∈ mosiTable →
      mosiSetup (.real p) = [.setAltMode p.id af]) ∧
    (pinsImpl (bs, bm, bo) = false →
      spi1 .mk (bs, bm, bo) mode speed rcc = .typeRejected) := by
  refine ⟨by decide, ?_, ?_, ?_, ?_, ?_, ?_, ?_⟩
  · rintro ⟨id, pm⟩
    cases id <;> cases pm <;> simp [hasPinSckImpl, sckTable, DefaultMode]
  · rintro ⟨id, pm⟩ af hmem
    simp [sckTable, Prod.ext_iff] at hmem
    rcases hmem with ⟨rfl, rfl⟩ | ⟨rfl, rfl⟩ | ⟨rfl, rfl⟩ | ⟨rfl, rfl⟩ <;> rfl
  · rintro ⟨id, pm⟩
    cases id <;> cases pm <;> simp [hasPinMisoImpl, misoTable, DefaultMode]
  · rintro ⟨id, pm⟩ af hmem
    simp [misoTable, Prod.ext_iff] at hmem
    rcases hmem with ⟨rfl, rfl⟩ | ⟨rfl, rfl⟩ | ⟨rfl, rfl⟩ | ⟨rfl, rfl⟩ <;> rfl
  · rintro ⟨id, pm⟩
    cases id <;> cases pm <;> simp [hasPinMosiImpl, mosiTable, DefaultMode]
  · rintro ⟨id, pm⟩ af hmem
    simp [mosiTable, Prod.ext_iff] at hmem
    rcases hmem with ⟨rfl, rfl⟩ | ⟨rfl, rfl⟩ | ⟨rfl, rfl⟩ | ⟨rfl, rfl⟩ | ⟨rfl, rfl⟩ <;>
      rfl
  · intro hfalse
    simp [spi1, hfalse]

/-- C8 witness: building with a pin outside the SCK table (here GPIO port 0
pin 3 stands for a pin with no `PinSck<SPI1>` impl) is rejected with no
hardware effect. -/
theorem C8_pin_capability_witness :
    spi1 .mk (.real ⟨.other 0 3, DefaultMode⟩, .noMiso, .noMosi)
      ⟨.IdleLow, .CaptureOnFirstTransition⟩ 1000000 ⟨48000000⟩ =
      .typeRejected :=
  (C8_pin_capability (.real ⟨.other 0 3, DefaultMode⟩) .noMiso .noMosi
      ⟨.IdleLow, .CaptureOnFirstTransition⟩ 1000000
      ⟨48000000⟩).2.2.2.2.2.2.2 (by decide)

/-- C9: `release` consumes the driver and returns exactly the owned
peripheral together with the pin set, every real bound pin deactivated into
the inert/analog state with its identity preserved and every placeholder
returned unchanged; it performs no peripheral-register access. -/
theorem C9_release (s : Spi) :
    (Spi.release s).2 = [] ∧
    (Spi.release s).1.1 = s.spi ∧
    (s.pins.1 = SckBinding.noSck →
      (Spi.release s).1.2.1 = SckBinding.noSck) ∧
    (∀ p, s.pins.1 = SckBinding.real p →
      (Spi.release s).1.2.1 = SckBinding.real ⟨p.id, PinMode.analog⟩) ∧
    (s.pins.2.1 = MisoBinding.noMiso →
      (Spi.release s).1.2.2.1 = MisoBinding.noMiso) ∧
    (∀ p, s.pins.2.1 = MisoBinding.real p →
      (Spi.release s).1.2.2.1 = MisoBinding.real ⟨p.id, PinMode.analog⟩) ∧
    (s.pins.2.2 = MosiBinding.noMosi →
      (Spi.release s).1.2.2.2 = MosiBinding.noMosi) ∧
    (∀ p, s.pins.2.2 = MosiBinding.real p →
      (Spi.release s).1.2.2.2 = MosiBinding.real ⟨p.id, PinMode.analog⟩) := by
  obtain ⟨spi, bs, bm, bo⟩ := s
  refine ⟨rfl, rfl, ?_, ?_, ?_, ?_, ?_, ?_⟩
  · rintro rfl; rfl
  · rintro p rfl; rfl
  · rintro rfl; rfl
  · rintro p rfl; rfl
  · rintro rfl; rfl
  · rintro p rfl; rfl

/-- C9 witness: releasing a driver built over SCK = PA5, MISO = PA6,
MOSI = PA7 returns those same pin identities in the analog state, with no
register effect. -/
theorem C9_release_witness :
    (Spi.release ⟨.mk, (.real ⟨.PA5, DefaultMode⟩, .real ⟨.PA6, DefaultMode⟩,
        .real ⟨.PA7, DefaultMode⟩)⟩).1.2.1 =
      SckBinding.real ⟨.PA5, PinMode.analog⟩ ∧
    (Spi.release ⟨.mk, (.real ⟨.PA5, DefaultMode⟩, .real ⟨.PA6, DefaultMode⟩,
        .real ⟨.PA7, DefaultMode⟩)⟩).2 = [] :=
  ⟨(C9_release ⟨.mk, (.real ⟨.PA5, DefaultMode⟩, .real ⟨.PA6, DefaultMode⟩,
      .real ⟨.PA7, DefaultMode⟩)⟩).2.2.2.1 ⟨.PA5, DefaultMode⟩ rfl,
   (C9_release ⟨.mk, (.real ⟨.PA5, DefaultMode⟩, .real ⟨.PA6, DefaultMode⟩,
      .real ⟨.PA7, DefaultMode⟩)⟩).1⟩

/-- C10: each placeholder role value (`NoSck`, `NoMiso`, `NoMosi`) has a
no-op activation (it emits no effect), an identity deactivation (it returns
itself unchanged), and satisfies its role's capability requirement for SPI1. -/
theorem C10_placeholders :
    sckSetup .noSck = [] ∧ misoSetup .noMiso = [] ∧ mosiSetup .noMosi = [] ∧
    releaseSck .noSck = .noSck ∧ releaseMiso .noMiso = .noMiso ∧
    releaseMosi .noMosi = .noMosi ∧
    hasPinSckImpl .noSck = true ∧ hasPinMisoImpl .noMiso = true ∧
    hasPinMosiImpl .noMosi = true := by
  decide

end StmSpi
